import Mathlib

/-!
# Verification of the `ParserModel` notebook (`a2/student/parser model.ipynb`)

Shallow embedding of the single-notebook repository: a feed-forward
"parser model" with an embedding lookup and two affine layers, plus the
inline sanity checks dispatched from `args = Namespace(embedding=True,
forward=False)`.

Tensors are embedded as nested lists over `ℚ` (the claims under
verification concern structure, shapes, zeros and equalities, none of
which depend on floating-point rounding).  Tensor row indexing is
`Option`-valued, mirroring the `IndexError` Python raises on an
out-of-range index; `embedding_lookup` and `forward` therefore return
`Option`, with `none` as the error path.  Dropout is modelled with an
explicit position-indexed Bernoulli keep-mask and a training flag, as in
`nn.Dropout`: in training mode a kept entry is scaled by `1/(1-p)` and a
dropped entry becomes `0`; in eval mode dropout is the identity.
-/

set_option autoImplicit false

namespace ParserSpec

/-- Number of columns of a list-of-rows matrix: the length of its first row
(the matrices the model builds are rectangular and nonempty). -/
def numCols (B : List (List ℚ)) : Nat :=
  (B.headD []).length

/-- Column `j` of a list-of-rows matrix. -/
def col (B : List (List ℚ)) (j : Nat) : List ℚ :=
  B.map (fun r => r.getD j 0)

/-- Dot product of two vectors. -/
def dot (u v : List ℚ) : ℚ :=
  (List.zipWith (fun a b => a * b) u v).sum

/-- Row-vector times matrix: `x · B`, one entry per column of `B`. -/
def matVec (B : List (List ℚ)) (x : List ℚ) : List ℚ :=
  (List.range (numCols B)).map (fun j => dot x (col B j))

/-- `torch.matmul` on batched row vectors: each row of `A` times `B`. -/
def matmul (A B : List (List ℚ)) : List (List ℚ) :=
  A.map (fun row => matVec B row)

/-- Broadcast addition of a bias row vector to every row, as in `X + b`. -/
def addRowVec (X : List (List ℚ)) (b : List ℚ) : List (List ℚ) :=
  X.map (fun row => List.zipWith (fun a c => a + c) row b)

/-- Elementwise ReLU on a vector. -/
def reluVec (x : List ℚ) : List ℚ :=
  x.map (fun v => max v 0)

/-- `torch.relu` on a batched tensor. -/
def reluM (X : List (List ℚ)) : List (List ℚ) :=
  X.map reluVec

/-- `nn.Dropout(p)` applied to `x`: in training mode entry `(i, j)` is kept
(and scaled by `1/(1-p)`) when `mask i j` is true and zeroed otherwise; in
eval mode the input passes through unchanged. -/
def dropoutApply (p : ℚ) (training : Bool) (mask : Nat → Nat → Bool)
    (x : List (List ℚ)) : List (List ℚ) :=
  if training then
    x.mapIdx (fun i row => row.mapIdx (fun j v => if mask i j then v / (1 - p) else 0))
  else
    x

/-- Traverse a list with an `Option`-valued function, propagating the first
failure, as Python propagates the first raised `IndexError`. -/
def optMap {α β : Type} (f : α → Option β) : List α → Option (List β)
  | [] => some []
  | a :: as =>
    match f a with
    | none => none
    | some b =>
      match optMap f as with
      | none => none
      | some bs => some (b :: bs)

/-- The `ParserModel` class: its parameters and the scalar fields set in
`__init__`.  The random `xavier_uniform_` / `uniform_` initialisation is
modelled by the weight fields holding arbitrary values of the initialised
shapes. -/
structure ParserModel where
  n_features : Nat
  n_classes : Nat
  dropout_prob : ℚ
  embed_size : Nat
  hidden_size : Nat
  embeddings : List (List ℚ)
  embed_to_hidden_weight : List (List ℚ)
  embed_to_hidden_bias : List ℚ
  hidden_to_logits_weight : List (List ℚ)
  hidden_to_logits_bias : List ℚ
  deriving Repr, DecidableEq

/-- `ParserModel.embedding_lookup`: `x = self.embeddings[w]` selects one
embedding row per index (raising on an out-of-range index), and
`x.view(x.size(0), -1)` flattens the selected rows of each batch row into
one vector. -/
def ParserModel.embedding_lookup (m : ParserModel) (w : List (List Nat)) :
    Option (List (List ℚ)) :=
  optMap (fun row => (optMap (fun i => m.embeddings[i]?) row).map List.flatten) w

/-- `ParserModel.forward`: embedding lookup, affine layer, `torch.relu`,
dropout, affine layer; no softmax is applied to the returned logits. -/
def ParserModel.forward (m : ParserModel) (training : Bool)
    (mask : Nat → Nat → Bool) (w : List (List Nat)) : Option (List (List ℚ)) :=
  match m.embedding_lookup w with
  | none => none
  | some x0 =>
    let x1 := addRowVec (matmul x0 m.embed_to_hidden_weight) m.embed_to_hidden_bias
    let x2 := reluM x1
    let x3 := dropoutApply m.dropout_prob training mask x2
    let logits := addRowVec (matmul x3 m.hidden_to_logits_weight) m.hidden_to_logits_bias
    some logits

/-- Every entry of `w` is a valid row index of the embedding matrix. -/
def ValidIndices (m : ParserModel) (w : List (List Nat)) : Prop :=
  ∀ row ∈ w, ∀ i ∈ row, i < m.embeddings.length

instance (m : ParserModel) (w : List (List Nat)) : Decidable (ValidIndices m w) := by
  unfold ValidIndices; infer_instance

/-- The total (error-free) value of the embedding lookup: per batch row, the
concatenation of the embedding rows selected by that row's indices. -/
def lookupPure (m : ParserModel) (w : List (List Nat)) : List (List ℚ) :=
  w.map (fun row => (row.map (fun i => m.embeddings.getD i [])).flatten)

/-- Spec-side pipeline, following the claim's words: `x = embedding_lookup(w)`;
`h = ReLU(x · embed_to_hidden_weight + embed_to_hidden_bias)`; `d = dropout(h)`;
`logits = d · hidden_to_logits_weight + hidden_to_logits_bias`; no softmax. -/
def specForwardPipeline (m : ParserModel) (training : Bool)
    (mask : Nat → Nat → Bool) (w : List (List Nat)) : Option (List (List ℚ)) :=
  (m.embedding_lookup w).map (fun x =>
    let h := reluM (addRowVec (matmul x m.embed_to_hidden_weight) m.embed_to_hidden_bias)
    let d := dropoutApply m.dropout_prob training mask h
    addRowVec (matmul d m.hidden_to_logits_weight) m.hidden_to_logits_bias)

/-- The total (error-free) value `forward` computes on valid indices: the
pure pipeline applied to `lookupPure`. -/
def forwardPure (m : ParserModel) (training : Bool) (mask : Nat → Nat → Bool)
    (w : List (List Nat)) : List (List ℚ) :=
  addRowVec
    (matmul
      (dropoutApply m.dropout_prob training mask
        (reluM (addRowVec (matmul (lookupPure m w) m.embed_to_hidden_weight)
          m.embed_to_hidden_bias)))
      m.hidden_to_logits_weight)
    m.hidden_to_logits_bias

/-- The logits `forward` computes for one batch row in eval mode (dropout
disabled): every step of `forward` acts row by row. -/
def rowForwardEval (m : ParserModel) (row : List Nat) : List ℚ :=
  List.zipWith (fun a c => a + c)
    (matVec m.hidden_to_logits_weight
      (reluVec (List.zipWith (fun a c => a + c)
        (matVec m.embed_to_hidden_weight
          ((row.map (fun i => m.embeddings.getD i [])).flatten))
        m.embed_to_hidden_bias)))
    m.hidden_to_logits_bias

/-- `embedding_lookup` with the method's effect on the model made explicit:
the body contains no assignment to `self`, so the returned model is the
receiver. -/
def ParserModel.embedding_lookup_run (m : ParserModel) (w : List (List Nat)) :
    ParserModel × Option (List (List ℚ)) :=
  (m, m.embedding_lookup w)

/-- `forward` with the method's effect on the model made explicit: the body
contains no assignment to `self`, so the returned model is the receiver. -/
def ParserModel.forward_run (m : ParserModel) (training : Bool)
    (mask : Nat → Nat → Bool) (w : List (List Nat)) :
    ParserModel × Option (List (List ℚ)) :=
  (m, m.forward training mask w)

/-- The `np.all(selected.data.numpy() == 0)` condition asserted by
`check_embedding`. -/
def allZero (X : List (List ℚ)) : Bool :=
  X.all (fun row => row.all (fun v => v == 0))

/-- The `out.shape == (4, 3)` condition asserted by `check_forward`. -/
def shapeIs4x3 (X : List (List ℚ)) : Bool :=
  X.length == 4 && X.all (fun r => r.length == 3)

/-- `check_embedding`: looks up `inds` (an out-of-range index would raise
`IndexError` inside the lookup) and asserts that every entry of the result
is zero, raising `AssertionError` otherwise. -/
def check_embedding (m : ParserModel) (inds : List (List Nat)) : Except String Unit :=
  match m.embedding_lookup inds with
  | none => Except.error "IndexError"
  | some selected =>
    if allZero selected then Except.ok () else Except.error "AssertionError"

/-- `check_forward`: runs the model on `inputs` and asserts that the output
shape is `(4, 3)`, raising `AssertionError` otherwise. -/
def check_forward (m : ParserModel) (training : Bool) (mask : Nat → Nat → Bool)
    (inputs : List (List Nat)) : Except String Unit :=
  match m.forward training mask inputs with
  | none => Except.error "IndexError"
  | some out =>
    if shapeIs4x3 out then Except.ok () else Except.error "AssertionError"

/-- `args.embedding` from the notebook cell `args = argparse.Namespace(embedding=True, forward=False)`. -/
def argsEmbedding : Bool := true

/-- `args.forward` from the notebook cell `args = argparse.Namespace(embedding=True, forward=False)`. -/
def argsForward : Bool := false

/-- The sanity checks the `__main__` dispatch in the model cell executes:
`check_embedding()` runs iff `args.embedding`, then `check_forward()` runs
iff `args.forward`. -/
def mainChecksRun : List String :=
  (if argsEmbedding then ["check_embedding"] else []) ++
    (if argsForward then ["check_forward"] else [])

/-- What the dedicated forward-check cell prints: the check message when
`args.forward` is set, otherwise the `else` branch prints `No`. -/
def forwardCellOutput : List String :=
  if argsForward then ["Forward sanity check passes!"] else ["No"]

/-- `np.zeros((100, 30), dtype=np.float32)`, the embedding matrix of the
sanity-check model. -/
def checkEmbeddings : List (List ℚ) :=
  List.replicate 100 (List.replicate 30 0)

/-- The sanity-check model `ParserModel(embeddings)` built in `__main__`:
default `n_features=36`, `hidden_size=200`, `n_classes=3`,
`dropout_prob=0.5`, `embed_size = embeddings.shape[1] = 30`.  The weights
stand in for the random `xavier_uniform_` / `uniform_` initialisation,
whose values none of the checked properties depend on; their shapes are the
initialised ones. -/
def checkModel : ParserModel where
  n_features := 36
  n_classes := 3
  dropout_prob := 1 / 2
  embed_size := 30
  hidden_size := 200
  embeddings := checkEmbeddings
  embed_to_hidden_weight := List.replicate (30 * 36) (List.replicate 200 0)
  embed_to_hidden_bias := List.replicate 200 0
  hidden_to_logits_weight := List.replicate 200 (List.replicate 3 0)
  hidden_to_logits_bias := List.replicate 3 0

/-- A `(4, 36)` index tensor like the ones `torch.randint(0, 100, (4, 36))`
draws for the sanity checks. -/
def checkInds : List (List Nat) :=
  List.replicate 4 (List.replicate 36 0)

/-- A small concrete model instance (2 words, `embed_size = 1`,
`n_features = 2`, `hidden_size = 1`, `n_classes = 1`) used to evaluate the
theorems on explicit inputs. -/
def tinyModel : ParserModel where
  n_features := 2
  n_classes := 1
  dropout_prob := 1 / 2
  embed_size := 1
  hidden_size := 1
  embeddings := [[1], [2]]
  embed_to_hidden_weight := [[1], [1]]
  embed_to_hidden_bias := [0]
  hidden_to_logits_weight := [[1]]
  hidden_to_logits_bias := [0]

/-! ## Helper lemmas -/

theorem optMap_congr_some {α β : Type} (f : α → Option β) (g : α → β)
    (l : List α) (h : ∀ a ∈ l, f a = some (g a)) :
    optMap f l = some (l.map g) := by
  induction l with
  | nil => rfl
  | cons a as ih =>
    have ha : f a = some (g a) := h a (by simp)
    have has : optMap f as = some (as.map g) := ih (fun x hx => h x (by simp [hx]))
    simp [optMap, ha, has]

theorem getElem?_eq_some_getD {α : Type} (l : List α) (i : Nat) (d : α)
    (h : i < l.length) : l[i]? = some (l.getD i d) := by
  rw [List.getElem?_eq_getElem h, List.getD_eq_getElem l d h]

theorem lookup_eq_pure (m : ParserModel) (w : List (List Nat))
    (hv : ValidIndices m w) :
    m.embedding_lookup w = some (lookupPure m w) := by
  unfold ParserModel.embedding_lookup lookupPure
  apply optMap_congr_some
  intro row hrow
  have hin : optMap (fun i => m.embeddings[i]?) row
      = some (row.map (fun i => m.embeddings.getD i [])) := by
    apply optMap_congr_some
    intro i hi
    exact getElem?_eq_some_getD _ _ _ (hv row hrow i hi)
  simp [hin]

theorem forward_eq_pure (m : ParserModel) (training : Bool)
    (mask : Nat → Nat → Bool) (w : List (List Nat)) (hv : ValidIndices m w) :
    m.forward training mask w = some (forwardPure m training mask w) := by
  unfold ParserModel.forward forwardPure
  rw [lookup_eq_pure m w hv]

theorem length_matVec (B : List (List ℚ)) (x : List ℚ) :
    (matVec B x).length = numCols B := by
  simp [matVec]

theorem length_matmul (A B : List (List ℚ)) : (matmul A B).length = A.length := by
  simp [matmul]

theorem length_addRowVec (X : List (List ℚ)) (b : List ℚ) :
    (addRowVec X b).length = X.length := by
  simp [addRowVec]

theorem length_reluM (X : List (List ℚ)) : (reluM X).length = X.length := by
  simp [reluM]

theorem length_dropoutApply (p : ℚ) (training : Bool) (mask : Nat → Nat → Bool)
    (X : List (List ℚ)) : (dropoutApply p training mask X).length = X.length := by
  cases training <;> simp [dropoutApply]

theorem length_lookupPure (m : ParserModel) (w : List (List Nat)) :
    (lookupPure m w).length = w.length := by
  simp [lookupPure]

theorem length_forwardPure (m : ParserModel) (training : Bool)
    (mask : Nat → Nat → Bool) (w : List (List Nat)) :
    (forwardPure m training mask w).length = w.length := by
  simp [forwardPure, length_addRowVec, length_matmul, length_dropoutApply,
    length_reluM, length_lookupPure]

theorem row_length_addRowVec_matmul (X B : List (List ℚ)) (b : List ℚ)
    (r : List ℚ) (hr : r ∈ addRowVec (matmul X B) b) :
    r.length = min (numCols B) b.length := by
  simp only [addRowVec, matmul, List.map_map, List.mem_map, Function.comp] at hr
  obtain ⟨row, _, rfl⟩ := hr
  simp [length_matVec]

theorem length_flatten_of_const {α β : Type} (f : β → List α) (l : List β)
    (k : Nat) (h : ∀ i ∈ l, (f i).length = k) :
    ((l.map f).flatten).length = l.length * k := by
  induction l with
  | nil => simp
  | cons a as ih =>
    have ha : (f a).length = k := h a (by simp)
    have has := ih (fun x hx => h x (by simp [hx]))
    simp only [List.map_cons, List.flatten_cons, List.length_append, ha, has,
      List.length_cons]
    ring

theorem getD_mem_of_lt {α : Type} (l : List α) (i : Nat) (d : α)
    (h : i < l.length) : l.getD i d ∈ l := by
  rw [List.getD_eq_getElem l d h]
  exact List.getElem_mem h

theorem lookupPure_row_length (m : ParserModel) (w : List (List Nat))
    (hv : ValidIndices m w)
    (hw : ∀ row ∈ w, row.length = m.n_features)
    (he : ∀ row ∈ m.embeddings, row.length = m.embed_size) :
    ∀ r ∈ lookupPure m w, r.length = m.n_features * m.embed_size := by
  intro r hr
  simp only [lookupPure, List.mem_map] at hr
  obtain ⟨row, hrow, rfl⟩ := hr
  rw [length_flatten_of_const _ row m.embed_size, hw row hrow]
  intro i hi
  exact he _ (getD_mem_of_lt _ _ _ (hv row hrow i hi))

theorem forwardPure_eval_eq_map (m : ParserModel) (mask : Nat → Nat → Bool)
    (w : List (List Nat)) :
    forwardPure m false mask w = w.map (rowForwardEval m) := by
  simp [forwardPure, dropoutApply, lookupPure, matmul, addRowVec, reluM,
    rowForwardEval, List.map_map, Function.comp]

/-! ## Claims -/

/-- C1: For every `ParserModel` and every index tensor `w`, `forward(w)`
computes exactly the pipeline `x = embedding_lookup(w)`;
`h = ReLU(x · embed_to_hidden_weight + embed_to_hidden_bias)`;
`d = dropout(h)`;
`logits = d · hidden_to_logits_weight + hidden_to_logits_bias`, with the
ReLU after the first affine layer, dropout between the two layers, and no
softmax applied to the returned logits. -/
theorem forward_computes_pipeline (m : ParserModel) (training : Bool)
    (mask : Nat → Nat → Bool) (w : List (List Nat)) :
    m.forward training mask w = specForwardPipeline m training mask w := by
  unfold ParserModel.forward specForwardPipeline
  cases m.embedding_lookup w <;> rfl

/-- C2: On valid indices, `embedding_lookup` returns per batch row the
concatenation of the embedding-matrix rows selected by that row's indices,
and the result has shape `(batch_size, n_features * embed_size)`. -/
theorem embedding_lookup_concat_shape (m : ParserModel) (w : List (List Nat))
    (hv : ValidIndices m w)
    (hw : ∀ row ∈ w, row.length = m.n_features)
    (he : ∀ row ∈ m.embeddings, row.length = m.embed_size) :
    m.embedding_lookup w
      = some (w.map (fun row => (row.map (fun i => m.embeddings.getD i [])).flatten)) ∧
    ∀ X, m.embedding_lookup w = some X →
      X.length = w.length ∧ ∀ r ∈ X, r.length = m.n_features * m.embed_size := by
  have h := lookup_eq_pure m w hv
  refine ⟨h, ?_⟩
  intro X hX
  rw [h] at hX
  injection hX with hX
  subst hX
  exact ⟨length_lookupPure m w, lookupPure_row_length m w hv hw he⟩

theorem embedding_lookup_concat_shape_witness :
    ValidIndices tinyModel [[0, 1]] ∧
    (tinyModel.embedding_lookup [[0, 1]]
        = some ([[0, 1]].map
            (fun row => (row.map (fun i => tinyModel.embeddings.getD i [])).flatten)) ∧
      ∀ X, tinyModel.embedding_lookup [[0, 1]] = some X →
        X.length = [[0, 1]].length ∧
          ∀ r ∈ X, r.length = tinyModel.n_features * tinyModel.embed_size) :=
  ⟨by decide,
    embedding_lookup_concat_shape tinyModel [[0, 1]] (by decide) (by decide) (by decide)⟩

/-- C9: On valid indices (`0 ≤ w[b][f] < num_words` for all `b`, `f`), the
`none` (out-of-range) branch of the `Option`-valued row indexing inside
`embedding_lookup` is unreachable: the lookup returns `some`. -/
theorem embedding_lookup_total_on_valid (m : ParserModel) (w : List (List Nat))
    (hv : ValidIndices m w) : ∃ X, m.embedding_lookup w = some X :=
  ⟨lookupPure m w, lookup_eq_pure m w hv⟩

theorem embedding_lookup_total_on_valid_witness :
    ValidIndices tinyModel [[1, 0]] ∧
    ∃ X, tinyModel.embedding_lookup [[1, 0]] = some X :=
  ⟨by decide, embedding_lookup_total_on_valid tinyModel [[1, 0]] (by decide)⟩

/-- C10: `embedding_lookup` is deterministic, `forward` in eval mode is
deterministic (and independent of the dropout mask), and `forward` in
training mode is determined by the model, the input and the dropout mask —
the dropout mask is the only extra input. -/
theorem lookup_forward_deterministic (m1 m2 : ParserModel)
    (w1 w2 : List (List Nat)) (mask1 mask2 : Nat → Nat → Bool)
    (hm : m1 = m2) (hw : w1 = w2) :
    m1.embedding_lookup w1 = m2.embedding_lookup w2 ∧
    m1.forward false mask1 w1 = m2.forward false mask2 w2 ∧
    m1.forward true mask1 w1 = m2.forward true mask1 w2 := by
  subst hm
  subst hw
  refine ⟨rfl, ?_, rfl⟩
  unfold ParserModel.forward
  cases m1.embedding_lookup w1 <;> simp [dropoutApply]

theorem lookup_forward_deterministic_witness :
    tinyModel = tinyModel ∧ ([[0]] : List (List Nat)) = [[0]] ∧
    (tinyModel.embedding_lookup [[0]] = tinyModel.embedding_lookup [[0]] ∧
      tinyModel.forward false (fun _ _ => true) [[0]]
        = tinyModel.forward false (fun _ _ => false) [[0]] ∧
      tinyModel.forward true (fun _ _ => true) [[0]]
        = tinyModel.forward true (fun _ _ => true) [[0]]) :=
  ⟨rfl, rfl,
    lookup_forward_deterministic tinyModel tinyModel [[0]] [[0]]
      (fun _ _ => true) (fun _ _ => false) rfl rfl⟩

/-- C8: Neither `embedding_lookup` nor `forward` mutates the model: after
either call every parameter and scalar field is unchanged. -/
theorem methods_do_not_mutate_model (m : ParserModel) (training : Bool)
    (mask : Nat → Nat → Bool) (w v : List (List Nat)) :
    ((m.embedding_lookup_run w).1.embeddings = m.embeddings ∧
      (m.embedding_lookup_run w).1.embed_to_hidden_weight = m.embed_to_hidden_weight ∧
      (m.embedding_lookup_run w).1.embed_to_hidden_bias = m.embed_to_hidden_bias ∧
      (m.embedding_lookup_run w).1.hidden_to_logits_weight = m.hidden_to_logits_weight ∧
      (m.embedding_lookup_run w).1.hidden_to_logits_bias = m.hidden_to_logits_bias ∧
      (m.embedding_lookup_run w).1.n_features = m.n_features ∧
      (m.embedding_lookup_run w).1.n_classes = m.n_classes ∧
      (m.embedding_lookup_run w).1.dropout_prob = m.dropout_prob ∧
      (m.embedding_lookup_run w).1.embed_size = m.embed_size ∧
      (m.embedding_lookup_run w).1.hidden_size = m.hidden_size) ∧
    ((m.forward_run training mask v).1.embeddings = m.embeddings ∧
      (m.forward_run training mask v).1.embed_to_hidden_weight = m.embed_to_hidden_weight ∧
      (m.forward_run training mask v).1.embed_to_hidden_bias = m.embed_to_hidden_bias ∧
      (m.forward_run training mask v).1.hidden_to_logits_weight = m.hidden_to_logits_weight ∧
      (m.forward_run training mask v).1.hidden_to_logits_bias = m.hidden_to_logits_bias ∧
      (m.forward_run training mask v).1.n_features = m.n_features ∧
      (m.forward_run training mask v).1.n_classes = m.n_classes ∧
      (m.forward_run training mask v).1.dropout_prob = m.dropout_prob ∧
      (m.forward_run training mask v).1.embed_size = m.embed_size ∧
      (m.forward_run training mask v).1.hidden_size = m.hidden_size) :=
  ⟨⟨rfl, rfl, rfl, rfl, rfl, rfl, rfl, rfl, rfl, rfl⟩,
    ⟨rfl, rfl, rfl, rfl, rfl, rfl, rfl, rfl, rfl, rfl⟩⟩

theorem checkEmbeddings_length : checkEmbeddings.length = 100 := by
  rw [checkEmbeddings]
  exact List.length_replicate _ _

theorem checkEmbeddings_getD (i : Nat) (h : i < 100) :
    checkEmbeddings.getD i [] = List.replicate 30 (0 : ℚ) := by
  rw [checkEmbeddings, List.getD_eq_getElem?_getD, List.getElem?_replicate, if_pos h]
  rfl

/-- C3: On valid indices, `forward` returns a logits tensor of shape
`(batch_size, n_classes)` whenever the hidden-to-logits weight has
`n_classes` columns and its bias has length `n_classes` (as `__init__`
initialises them); in particular a `(4, 36)` input to the sanity-check
model yields output of shape `(4, 3)`, so the shape assertion in
`check_forward` holds. -/
theorem forward_output_shape (m : ParserModel) (training : Bool)
    (mask : Nat → Nat → Bool) (w : List (List Nat)) (hv : ValidIndices m w)
    (hW : numCols m.hidden_to_logits_weight = m.n_classes)
    (hb : m.hidden_to_logits_bias.length = m.n_classes) :
    ∃ out, m.forward training mask w = some out ∧
      out.length = w.length ∧ ∀ r ∈ out, r.length = m.n_classes := by
  refine ⟨forwardPure m training mask w, forward_eq_pure m training mask w hv,
    length_forwardPure m training mask w, ?_⟩
  intro r hr
  simp only [forwardPure] at hr
  rw [row_length_addRowVec_matmul _ _ _ r hr, hW, hb, min_self]

theorem forward_output_shape_witness :
    ValidIndices checkModel checkInds ∧
    numCols checkModel.hidden_to_logits_weight = checkModel.n_classes ∧
    checkModel.hidden_to_logits_bias.length = checkModel.n_classes ∧
    ∃ out, checkModel.forward true (fun _ _ => true) checkInds = some out ∧
      out.length = checkInds.length ∧ ∀ r ∈ out, r.length = checkModel.n_classes :=
  ⟨by decide, by decide, by decide,
    forward_output_shape checkModel true (fun _ _ => true) checkInds
      (by decide) (by decide) (by decide)⟩

/-- C5: For the model built from the `100 × 30` all-zero embedding matrix,
`embedding_lookup` on any tensor of indices drawn from `[0, 100)` returns a
tensor whose entries are all zero, so `check_embedding` passes its
assertion and never raises. -/
theorem check_embedding_zero_embeddings (w : List (List Nat))
    (hv : ValidIndices checkModel w) :
    ∃ X, checkModel.embedding_lookup w = some X ∧
      (∀ r ∈ X, ∀ v ∈ r, v = 0) ∧
      check_embedding checkModel w = Except.ok () := by
  have h := lookup_eq_pure checkModel w hv
  have hz : ∀ r ∈ lookupPure checkModel w, ∀ v ∈ r, v = 0 := by
    intro r hr v hvmem
    simp only [lookupPure, List.mem_map] at hr
    obtain ⟨row, hrow, rfl⟩ := hr
    simp only [List.mem_flatten, List.mem_map] at hvmem
    obtain ⟨l, ⟨i, hi, rfl⟩, hvl⟩ := hvmem
    have hlt := hv row hrow i hi
    have hemb : checkModel.embeddings = checkEmbeddings := rfl
    rw [hemb, checkEmbeddings_length] at hlt
    have hget : checkModel.embeddings.getD i [] = List.replicate 30 (0 : ℚ) := by
      rw [hemb, checkEmbeddings_getD i hlt]
    rw [hget] at hvl
    exact List.eq_of_mem_replicate hvl
  refine ⟨lookupPure checkModel w, h, hz, ?_⟩
  unfold check_embedding
  rw [h]
  have hall : allZero (lookupPure checkModel w) = true := by
    simp only [allZero, List.all_eq_true, beq_iff_eq]
    exact hz
  simp [hall]

theorem check_embedding_zero_embeddings_witness :
    ValidIndices checkModel (List.replicate 4 (List.replicate 36 7)) ∧
    ∃ X, checkModel.embedding_lookup (List.replicate 4 (List.replicate 36 7)) = some X ∧
      (∀ r ∈ X, ∀ v ∈ r, v = 0) ∧
      check_embedding checkModel (List.replicate 4 (List.replicate 36 7)) = Except.ok () :=
  ⟨by decide, check_embedding_zero_embeddings _ (by decide)⟩

/-- C6: On valid, shape-compatible inputs neither `embedding_lookup` nor
`forward` takes an error path — both return `some` — and the only failure
handling is the sanity-check assertions: `check_embedding` raises
`AssertionError` exactly when the lookup result has a non-zero element, and
`check_forward` raises `AssertionError` exactly when the output shape
differs from `(4, 3)`. -/
theorem error_handling_asserts (m : ParserModel) (training : Bool)
    (mask : Nat → Nat → Bool) (w : List (List Nat)) (hv : ValidIndices m w) :
    (∃ x, m.embedding_lookup w = some x) ∧
    (∃ y, m.forward training mask w = some y) ∧
    (∀ x, m.embedding_lookup w = some x →
      (check_embedding m w = Except.error "AssertionError" ↔ allZero x = false) ∧
      (check_embedding m w = Except.ok () ↔ allZero x = true)) ∧
    (∀ y, m.forward training mask w = some y →
      (check_forward m training mask w = Except.error "AssertionError" ↔ shapeIs4x3 y = false) ∧
      (check_forward m training mask w = Except.ok () ↔ shapeIs4x3 y = true)) := by
  refine ⟨⟨_, lookup_eq_pure m w hv⟩, ⟨_, forward_eq_pure m training mask w hv⟩, ?_, ?_⟩
  · intro x hx
    unfold check_embedding
    rw [hx]
    cases h : allZero x <;> simp [h]
  · intro y hy
    unfold check_forward
    rw [hy]
    cases h : shapeIs4x3 y <;> simp [h]

theorem error_handling_asserts_witness :
    ValidIndices tinyModel [[0, 0]] ∧
    ((∃ x, tinyModel.embedding_lookup [[0, 0]] = some x) ∧
      (∃ y, tinyModel.forward false (fun _ _ => true) [[0, 0]] = some y) ∧
      (∀ x, tinyModel.embedding_lookup [[0, 0]] = some x →
        (check_embedding tinyModel [[0, 0]] = Except.error "AssertionError" ↔ allZero x = false) ∧
        (check_embedding tinyModel [[0, 0]] = Except.ok () ↔ allZero x = true)) ∧
      (∀ y, tinyModel.forward false (fun _ _ => true) [[0, 0]] = some y →
        (check_forward tinyModel false (fun _ _ => true) [[0, 0]]
            = Except.error "AssertionError" ↔ shapeIs4x3 y = false) ∧
        (check_forward tinyModel false (fun _ _ => true) [[0, 0]]
            = Except.ok () ↔ shapeIs4x3 y = true))) :=
  ⟨by decide, error_handling_asserts tinyModel false (fun _ _ => true) [[0, 0]] (by decide)⟩

/-- C7: In eval mode (dropout disabled), each batch row's logits depend only
on that row's feature window: if two valid index tensors agree on row `b`,
the two outputs agree on row `b`, whatever the other rows are. -/
theorem forward_row_local (m : ParserModel) (mask1 mask2 : Nat → Nat → Bool)
    (w1 w2 : List (List Nat)) (b : Nat)
    (hv1 : ValidIndices m w1) (hv2 : ValidIndices m w2)
    (hb : w1[b]? = w2[b]?) :
    ∃ o1 o2, m.forward false mask1 w1 = some o1 ∧
      m.forward false mask2 w2 = some o2 ∧ o1[b]? = o2[b]? := by
  refine ⟨_, _, forward_eq_pure m false mask1 w1 hv1,
    forward_eq_pure m false mask2 w2 hv2, ?_⟩
  rw [forwardPure_eval_eq_map, forwardPure_eval_eq_map,
    List.getElem?_map, List.getElem?_map, hb]

theorem forward_row_local_witness :
    ValidIndices tinyModel [[0, 0], [1, 1]] ∧ ValidIndices tinyModel [[0, 0]] ∧
    ([[0, 0], [1, 1]] : List (List Nat))[0]? = ([[0, 0]] : List (List Nat))[0]? ∧
    ∃ o1 o2, tinyModel.forward false (fun _ _ => true) [[0, 0], [1, 1]] = some o1 ∧
      tinyModel.forward false (fun _ _ => false) [[0, 0]] = some o2 ∧
      o1[0]? = o2[0]? :=
  ⟨by decide, by decide, by decide,
    forward_row_local tinyModel (fun _ _ => true) (fun _ _ => false)
      [[0, 0], [1, 1]] [[0, 0]] 0 (by decide) (by decide) (by decide)⟩

/-- C4 (counterexample): it is not the case that both sanity checks execute
when the notebook runs — with `args = Namespace(embedding=True,
forward=False)` the dispatch never calls `check_forward`. -/
theorem forward_check_not_run :
    ¬ ("check_embedding" ∈ mainChecksRun ∧ "check_forward" ∈ mainChecksRun) := by
  decide

/-- C4 (amended): when the notebook is run with its recorded
`args = Namespace(embedding=True, forward=False)`, the dispatch executes
only `check_embedding`; `check_forward` is skipped and the forward-check
cell takes its `else` branch, printing `No`. -/
theorem main_dispatch_runs_embedding_only :
    mainChecksRun = ["check_embedding"] ∧ forwardCellOutput = ["No"] :=
  ⟨rfl, rfl⟩

end ParserSpec
